import Mathlib

/-!
Shallow embedding of `src/merge_gpx_kestrel.py` (kestrel-tools).

The script merges a GPX location track into a Kestrel weather CSV:
it copies 9 preamble lines, trims trailing empty-named header columns,
appends `latitude`, `longitude`, `elevation` columns, copies the units
row, and for each data row looks up the first track point whose time is
strictly after the row's instant and linearly interpolates the position.

Modelling conventions:
- absolute instants and naive (civil) datetimes are `Int` seconds since
  1970-01-01 00:00:00 (UTC resp. naive wall clock);
- Python `timedelta.seconds` (the normalized seconds component, NOT
  `total_seconds()`) is `(a - b).emod 86400`;
- Python floats are modelled as `ℚ`;
- raised exceptions are modelled by the `MergeErr` type; the output
  file written so far when an exception aborts the merge is kept in the
  `MergeOutput` structure together with the error;
- the `after_point` local variable of the Python function survives from
  one loop iteration to the next, so it is threaded through the row
  loop as an `Option TrackPoint` that starts out `none` (unassigned).
-/

/-- One cell of an output CSV row: the csv writer receives either the
string value read from the input row or a float computed by the merge. -/
inductive Cell where
  | str : String → Cell
  | num : ℚ → Cell
deriving DecidableEq, Repr

/-- Exceptions the merge can raise, by Python exception site:
`keyErrorTime` = `row['Time']` missing; `valueErrorTime` = `strptime`
failure; `nameErrorNoPoints` = loop variable `i` unbound because the
point list is empty; `unboundLocalAfter` = `after_point` referenced but
never assigned; `valueErrorExtras` = `DictWriter.writerow` rejecting the
restkey `None` carrying surplus values; `indexErrorHeader` = popping the
last header name off an exhausted list. -/
inductive MergeErr where
  | keyErrorTime
  | valueErrorTime
  | nameErrorNoPoints
  | unboundLocalAfter
  | indexErrorPoints
  | valueErrorExtras
  | indexErrorHeader
deriving DecidableEq, Repr

/-- A GPX point as produced by `gpx.get_points_data()`: a naive
timestamp (wall-clock seconds, to be tagged as UTC) and coordinates. -/
structure GpxPoint where
  time : Int
  latitude : ℚ
  longitude : ℚ
  elevation : ℚ
deriving DecidableEq, Repr

/-- A loaded track point, `point.time` already an absolute UTC instant
after `pytz.utc.localize`. -/
structure TrackPoint where
  time : Int
  latitude : ℚ
  longitude : ℚ
  elevation : ℚ
deriving DecidableEq, Repr

/-- Lines 90-96: `pytz.utc.localize(point.time)` attaches the UTC zone
identity to the naive gpx timestamp without shifting its wall-clock
value, so the instant equals the naive value unchanged. -/
def loadGpxPoints (ps : List GpxPoint) : List TrackPoint :=
  ps.map (fun p =>
    { time := p.time
      latitude := p.latitude
      longitude := p.longitude
      elevation := p.elevation })

/-- A civil (zone-less) calendar timestamp, as parsed from the
`'%Y-%m-%d %H:%M:%S'` format. -/
structure Civil where
  year : Int
  month : Int
  day : Int
  hour : Int
  minute : Int
  second : Int
deriving DecidableEq, Repr

/-- Days from 1970-01-01 of a proleptic-Gregorian date (the standard
days-from-civil algorithm; all dates in this development are ≥ 1970 so
every division below has nonnegative operands). -/
def daysFromCivil (y m d : Int) : Int :=
  let yy := y - (if m ≤ 2 then 1 else 0)
  let era := (if 0 ≤ yy then yy else yy - 399) / 400
  let yoe := yy - era * 400
  let mp := (m + 9).emod 12
  let doy := (153 * mp + 2) / 5 + d - 1
  let doe := yoe * 365 + yoe / 4 - yoe / 100 + doy
  era * 146097 + doe - 719468

/-- Naive seconds since 1970-01-01 00:00:00 of a civil timestamp. -/
def civilToEpoch (c : Civil) : Int :=
  daysFromCivil c.year c.month c.day * 86400
    + c.hour * 3600 + c.minute * 60 + c.second

/-- Day of month of the last Sunday of a 31-day month
(1970-01-01 was a Thursday; day-of-week 0 is Sunday). -/
def lastSundayOfMonth31 (y m : Int) : Int :=
  31 - (daysFromCivil y m 31 + 4).emod 7

/-- Whether pytz maps a civil wall-clock reading in zone `CET` to the
daylight-saving offset (CEST, UTC+2): from the last Sunday of March
03:00 local up to the last Sunday of October 02:00 local.  Readings in
the nonexistent March gap and the ambiguous October hour get the
standard offset, matching `localize` with its default `is_dst=False`. -/
def isCEST (c : Civil) : Bool :=
  let t := civilToEpoch c
  let dstStart := civilToEpoch
    { year := c.year, month := 3, day := lastSundayOfMonth31 c.year 3
      hour := 3, minute := 0, second := 0 }
  let dstStop := civilToEpoch
    { year := c.year, month := 10, day := lastSundayOfMonth31 c.year 10
      hour := 2, minute := 0, second := 0 }
  decide (dstStart ≤ t ∧ t < dstStop)

/-- Offset from UTC, in seconds, that `pytz.timezone('CET').localize`
attaches to a civil reading. -/
def cetUtcOffset (c : Civil) : Int :=
  if isCEST c then 7200 else 3600

/-- Absolute UTC instant of a civil wall-clock reading interpreted in
the CET zone (line 121 of the source). -/
def utcOfCET (c : Civil) : Int :=
  civilToEpoch c - cetUtcOffset c

/-- Numeric value of an ASCII digit character. -/
def digitVal (c : Char) : Int :=
  (c.toNat : Int) - 48

/-- Gregorian leap year test. -/
def isLeapYear (y : Int) : Bool :=
  (y.emod 4 == 0 && y.emod 100 != 0) || y.emod 400 == 0

/-- Number of days in a month, for the day-of-month range check that
`datetime` performs. -/
def daysInMonth (y m : Int) : Int :=
  if m == 2 then (if isLeapYear y then 29 else 28)
  else if m == 4 || m == 6 || m == 9 || m == 11 then 30
  else 31

/-- Line 120: `datetime.strptime(row['Time'], '%Y-%m-%d %H:%M:%S')` on
the canonical zero-padded form that Kestrel Link exports, including the
range checks `datetime` applies; any other string raises `ValueError`
(modelled as `none`). -/
def strptimeYmdHMS (s : String) : Option Civil :=
  match s.toList with
  | [y1, y2, y3, y4, c1, m1, m2, c2, d1, d2, c3, h1, h2, c4, n1, n2, c5, s1, s2] =>
    if ([y1, y2, y3, y4, m1, m2, d1, d2, h1, h2, n1, n2, s1, s2].all Char.isDigit
        && c1 == '-' && c2 == '-' && c3 == ' ' && c4 == ':' && c5 == ':') then
      let y := digitVal y1 * 1000 + digitVal y2 * 100 + digitVal y3 * 10 + digitVal y4
      let mo := digitVal m1 * 10 + digitVal m2
      let d := digitVal d1 * 10 + digitVal d2
      let h := digitVal h1 * 10 + digitVal h2
      let mi := digitVal n1 * 10 + digitVal n2
      let se := digitVal s1 * 10 + digitVal s2
      if 1 ≤ mo ∧ mo ≤ 12 ∧ 1 ≤ d ∧ d ≤ daysInMonth y mo ∧ h ≤ 23 ∧ mi ≤ 59 ∧ se ≤ 59 then
        some { year := y, month := mo, day := d, hour := h, minute := mi, second := se }
      else none
    else none
  | _ => none

/-- Python `timedelta.seconds` of the difference of two instants: the
normalized seconds component, i.e. the difference modulo 86400 with a
nonnegative result (NOT `total_seconds()`). -/
def tdSeconds (a b : Int) : Int :=
  (a - b).emod 86400

/-- Last-binding lookup in an association list, matching the semantics
of a Python dict built by successive assignments. -/
def dictGet {α : Type} (l : List (String × α)) (k : String) : Option α :=
  ((l.filter (fun p => p.1 == k)).getLast?).map (fun p => p.2)

/-- Lines 124-127: scan for the first track point whose time is strictly
after the measurement; returns its index and the point, or `none` when
the loop finishes without `break`. -/
def scanFirstAfter (kt : Int) : List TrackPoint → Option (Nat × TrackPoint)
  | [] => none
  | p :: ps =>
    if kt < p.time then some (0, p)
    else (scanFirstAfter kt ps).map (fun r => (r.1 + 1, r.2))

/-- The three output column names appended by the merge. -/
def locNames : List String :=
  ["latitude", "longitude", "elevation"]

/-- Lines 136-138: location fields copied verbatim from the point whose
time equals the measurement. -/
def locUpdatesExact (before : TrackPoint) : List (String × Cell) :=
  [("latitude", Cell.num before.latitude),
   ("longitude", Cell.num before.longitude),
   ("elevation", Cell.num before.elevation)]

/-- Lines 140-152: per-second rates over the whole-second component of
the interval, then linear blending over the elapsed whole seconds. -/
def locUpdatesInterp (before afterP : TrackPoint) (kt : Int) : List (String × Cell) :=
  let seconds : ℚ := ((tdSeconds afterP.time before.time : Int) : ℚ)
  let latitudeRate := (afterP.latitude - before.latitude) / seconds
  let longitudeRate := (afterP.longitude - before.longitude) / seconds
  let elevationRate := (afterP.elevation - before.elevation) / seconds
  let elapsed : ℚ := ((tdSeconds kt before.time : Int) : ℚ)
  [("latitude", Cell.num (before.latitude + elapsed * latitudeRate)),
   ("longitude", Cell.num (before.longitude + elapsed * longitudeRate)),
   ("elevation", Cell.num (before.elevation + elapsed * elevationRate))]

/-- Lines 123-152 for one row: find the scan index `i` (left at the last
index when the loop never breaks), update `after_point` only when the
loop breaks, then compute the location updates.  Returns the update
list and the new `after_point` state, or the exception raised. -/
def annotateAt (points : List TrackPoint) (afterSt : Option TrackPoint) (kt : Int) :
    Except MergeErr (List (String × Cell) × Option TrackPoint) :=
  if points.isEmpty then Except.error MergeErr.nameErrorNoPoints
  else
    let scanRes := scanFirstAfter kt points
    let i : Nat :=
      match scanRes with
      | some r => r.1
      | none => points.length - 1
    let afterSt2 : Option TrackPoint :=
      match scanRes with
      | some r => some r.2
      | none => afterSt
    if i = 0 then Except.ok ([], afterSt2)
    else
      match points.get? (i - 1) with
      | none => Except.error MergeErr.indexErrorPoints
      | some before =>
        if before.time = kt then Except.ok (locUpdatesExact before, afterSt2)
        else
          match afterSt2 with
          | none => Except.error MergeErr.unboundLocalAfter
          | some afterP =>
            if tdSeconds afterP.time before.time = 0 then Except.ok ([], afterSt2)
            else Except.ok (locUpdatesInterp before afterP kt, afterSt2)

/-- Value the csv writer emits for one header column: the location
update if the merge set one, else the value read from the input row,
else the writer's restval `''`. -/
def cellValue (dict : List (String × String)) (updates : List (String × Cell))
    (h : String) : Cell :=
  match dictGet updates h with
  | some c => c
  | none => Cell.str ((dictGet dict h).getD "")

/-- Line 155: `DictWriter.writerow`.  Surplus values beyond the (trimmed)
fieldnames sit under the reader's restkey `None` and make the writer
raise `ValueError`; otherwise each header column gets the updated value,
the original row value, or the writer's restval `''`. -/
def writeRowCells (headers : List String) (dict : List (String × String))
    (updates : List (String × Cell)) (rest : List String) : Except MergeErr (List Cell) :=
  if rest.isEmpty then Except.ok (headers.map (cellValue dict updates))
  else Except.error MergeErr.valueErrorExtras

/-- One iteration of the row loop (lines 118-155) given the measurement
instant already computed: build the row dict from the trimmed
fieldnames, annotate, and write. -/
def processRowAt (points : List TrackPoint) (fns headers : List String)
    (afterSt : Option TrackPoint) (raw : List String) (kt : Int) :
    Except MergeErr (List Cell) × Option TrackPoint :=
  let dict := List.zip fns raw
  let rest := raw.drop fns.length
  match annotateAt points afterSt kt with
  | Except.error e => (Except.error e, afterSt)
  | Except.ok (updates, st2) => (writeRowCells headers dict updates rest, st2)

/-- One iteration of the row loop (lines 118-155): parse the `Time`
field, localize it in CET, convert to a UTC instant, and process. -/
def processRow (points : List TrackPoint) (fns headers : List String)
    (afterSt : Option TrackPoint) (raw : List String) :
    Except MergeErr (List Cell) × Option TrackPoint :=
  let dict := List.zip fns raw
  match dictGet dict "Time" with
  | none => (Except.error MergeErr.keyErrorTime, afterSt)
  | some ts =>
    match strptimeYmdHMS ts with
    | none => (Except.error MergeErr.valueErrorTime, afterSt)
    | some c => processRowAt points fns headers afterSt raw (utcOfCET c)

/-- The row loop: write each processed row until an exception aborts the
merge; rows already written stay in the output. -/
def writeRows (points : List TrackPoint) (fns headers : List String) :
    Option TrackPoint → List (List String) → List (List Cell) × Option MergeErr
  | _, [] => ([], none)
  | st, r :: rs =>
    match processRow points fns headers st r with
    | (Except.ok o, st2) =>
      let tail := writeRows points fns headers st2 rs
      (o :: tail.1, tail.2)
    | (Except.error e, _) => ([], some e)

/-- The `after_point` state after the row loop has consumed a prefix of
the data rows. -/
def afterStateAt (points : List TrackPoint) (fns headers : List String) :
    Option TrackPoint → List (List String) → Option TrackPoint
  | st, [] => st
  | st, r :: rs => afterStateAt points fns headers (processRow points fns headers st r).2 rs

/-- Lines 106-107: `while fieldnames[-1] == '': fieldnames.pop()` —
drop trailing empty names; when every name is popped the next `[-1]`
raises `IndexError` (modelled as `none`). -/
def trimFieldnames (l : List String) : Option (List String) :=
  let r := l.reverse.dropWhile (fun s => s == "")
  if r.isEmpty then none else some r.reverse

/-- The weather log as structured input: 9 preamble lines, the header
row's names, the units line, then the data rows as raw value lists. -/
structure KestrelInput where
  preamble : List String
  headerRow : List String
  unitsLine : String
  dataRows : List (List String)
deriving DecidableEq, Repr

/-- What the merge has written to the located file, plus the exception
that aborted it, if any.  Preamble, header and units are written before
any data row, so they are present whenever the row loop starts. -/
structure MergeOutput where
  preambleOut : List String
  headerOut : Option (List String)
  unitsOut : Option String
  rowsOut : List (List Cell)
  errorOut : Option MergeErr
deriving DecidableEq, Repr

/-- Lines 98-155: the whole merge of one gpx/kestrel file pair —
preamble copied verbatim, header trimmed and extended with the three
location columns, units line copied verbatim, then the row loop. -/
def mergeGpxKestrel (points : List TrackPoint) (inp : KestrelInput) : MergeOutput :=
  match trimFieldnames inp.headerRow with
  | none =>
    { preambleOut := inp.preamble, headerOut := none, unitsOut := none
      rowsOut := [], errorOut := some MergeErr.indexErrorHeader }
  | some fns =>
    let headers := fns ++ locNames
    let written := writeRows points fns headers none inp.dataRows
    { preambleOut := inp.preamble, headerOut := some headers
      unitsOut := some inp.unitsLine, rowsOut := written.1, errorOut := written.2 }

/-- The scan finds index `i` when the point there is strictly after the
instant and no earlier point is. -/
theorem scanFirstAfter_eq_some (kt : Int) (points : List TrackPoint) (i : Nat)
    (p : TrackPoint) (hp : points.get? i = some p) (hkt : kt < p.time)
    (hprev : ∀ j q, j < i → points.get? j = some q → ¬ kt < q.time) :
    scanFirstAfter kt points = some (i, p) := by
  induction points generalizing i with
  | nil => simp at hp
  | cons x rest ih =>
    cases i with
    | zero =>
      simp only [List.get?] at hp
      cases hp
      simp [scanFirstAfter, hkt]
    | succ n =>
      have hx : ¬ kt < x.time := hprev 0 x (Nat.succ_pos n) rfl
      have := ih n hp (fun j q hj hq => hprev (j + 1) q (Nat.succ_lt_succ hj) hq)
      simp [scanFirstAfter, hx, this]

/-- A successful scan means the point list is not empty. -/
theorem scanFirstAfter_ne_nil {kt : Int} {points : List TrackPoint}
    {r : Nat × TrackPoint} (h : scanFirstAfter kt points = some r) :
    points.isEmpty = false := by
  cases points with
  | nil => simp [scanFirstAfter] at h
  | cons x rest => simp

/-- Lookup in an appended association list prefers the later bindings. -/
theorem dictGet_append {α : Type} (l1 l2 : List (String × α)) (k : String) :
    dictGet (l1 ++ l2) k = (dictGet l2 k).or (dictGet l1 k) := by
  simp only [dictGet, List.filter_append, List.getLast?_append]
  cases (l2.filter (fun p => p.1 == k)).getLast? with
  | none => simp
  | some p => simp

/-- Lookup misses when the key is bound nowhere. -/
theorem dictGet_eq_none {α : Type} (l : List (String × α)) (k : String)
    (h : ∀ p ∈ l, p.1 ≠ k) : dictGet l k = none := by
  have : l.filter (fun p => p.1 == k) = [] := by
    rw [List.filter_eq_nil_iff]
    intro a ha
    simpa using h a ha
  simp [dictGet, this]

/-- With distinct field names, looking the `j`-th name up in the zipped
row dict returns the `j`-th raw value. -/
theorem dictGet_zip_nodup {α : Type} (fns : List String) (vs : List α)
    (hnd : fns.Nodup) (j : Nat) (f : String) (v : α)
    (hf : fns.get? j = some f) (hv : vs.get? j = some v) :
    dictGet (List.zip fns vs) f = some v := by
  induction fns generalizing vs j with
  | nil => simp at hf
  | cons x rest ih =>
    cases vs with
    | nil => simp at hv
    | cons w ws =>
      rw [List.zip_cons_cons]
      cases j with
      | zero =>
        simp only [List.get?] at hf hv
        cases hf; cases hv
        have hx : ∀ p ∈ List.zip rest ws, p.1 ≠ f := by
          intro p hp
          have hmem : p.1 ∈ rest := by
            have h1 : p.1 ∈ List.map Prod.fst (List.zip rest ws) := List.mem_map_of_mem _ hp
            have h2 : List.map Prod.fst (List.zip rest ws) ⊆ rest := by
              intro a ha
              rcases List.mem_map.mp ha with ⟨q, hq, rfl⟩
              exact (List.of_mem_zip hq).1
            exact h2 h1
          intro hcontra
          exact (List.nodup_cons.mp hnd).1 (hcontra ▸ hmem)
        have htail : dictGet (List.zip rest ws) f = none := dictGet_eq_none _ _ hx
        show dictGet ((f, v) :: List.zip rest ws) f = some v
        have : (f, v) :: List.zip rest ws = [(f, v)] ++ List.zip rest ws := rfl
        rw [this, dictGet_append, htail]
        simp [dictGet]
      | succ n =>
        simp only [List.get?] at hf hv
        have hne : x ≠ f := by
          intro hcontra
          exact (List.nodup_cons.mp hnd).1 (hcontra ▸ List.get?_mem hf)
        have : (x, w) :: List.zip rest ws = [(x, w)] ++ List.zip rest ws := rfl
        rw [this, dictGet_append]
        rw [ih ws (List.nodup_cons.mp hnd).2 n hf hv]
        simp

/-- The three appended columns of a written row, when the merge set the
fields verbatim from an exactly matching point. -/
theorem cellValue_exact (dict : List (String × String)) (b : TrackPoint) :
    cellValue dict (locUpdatesExact b) "latitude" = Cell.num b.latitude
    ∧ cellValue dict (locUpdatesExact b) "longitude" = Cell.num b.longitude
    ∧ cellValue dict (locUpdatesExact b) "elevation" = Cell.num b.elevation := by
  refine ⟨rfl, rfl, rfl⟩

/-- The three appended columns of a written row, when the merge
interpolated. -/
theorem cellValue_interp (dict : List (String × String)) (b a : TrackPoint) (kt : Int) :
    cellValue dict (locUpdatesInterp b a kt) "latitude"
      = Cell.num (b.latitude + ((tdSeconds kt b.time : Int) : ℚ)
          * ((a.latitude - b.latitude) / ((tdSeconds a.time b.time : Int) : ℚ)))
    ∧ cellValue dict (locUpdatesInterp b a kt) "longitude"
      = Cell.num (b.longitude + ((tdSeconds kt b.time : Int) : ℚ)
          * ((a.longitude - b.longitude) / ((tdSeconds a.time b.time : Int) : ℚ)))
    ∧ cellValue dict (locUpdatesInterp b a kt) "elevation"
      = Cell.num (b.elevation + ((tdSeconds kt b.time : Int) : ℚ)
          * ((a.elevation - b.elevation) / ((tdSeconds a.time b.time : Int) : ℚ))) := by
  refine ⟨rfl, rfl, rfl⟩

/-- With no location updates, every column replays the input row. -/
theorem cellValue_noUpdates (dict : List (String × String)) (h : String) :
    cellValue dict [] h = Cell.str ((dictGet dict h).getD "") := rfl

/-- Dropping the input columns of a written row leaves the three
appended location columns. -/
theorem mapRow_drop (fns : List String) (f : String → Cell) :
    ((fns ++ locNames).map f).drop fns.length
      = [f "latitude", f "longitude", f "elevation"] := by
  rw [List.map_append, List.drop_left' (by simp)]
  rfl

/-- Claim C3: for every weather record whose instant exactly equals the
timestamp of the track point immediately preceding the first point
strictly after it, the output latitude, longitude and elevation equal
that track point's values verbatim, with no interpolation arithmetic
applied and zero error. -/
theorem C3_exact_match_verbatim
    (points : List TrackPoint) (fns : List String) (afterSt : Option TrackPoint)
    (raw : List String) (ts : String) (c : Civil) (i : Nat)
    (afterP before : TrackPoint)
    (hTime : dictGet (List.zip fns raw) "Time" = some ts)
    (hParse : strptimeYmdHMS ts = some c)
    (hScan : scanFirstAfter (utcOfCET c) points = some (i, afterP))
    (hi : i ≠ 0)
    (hBefore : points.get? (i - 1) = some before)
    (hEq : before.time = utcOfCET c)
    (hLen : raw.length ≤ fns.length) :
    processRow points fns (fns ++ locNames) afterSt raw
      = (Except.ok ((fns ++ locNames).map
            (cellValue (List.zip fns raw) (locUpdatesExact before))), some afterP)
    ∧ ((fns ++ locNames).map
          (cellValue (List.zip fns raw) (locUpdatesExact before))).drop fns.length
        = [Cell.num before.latitude, Cell.num before.longitude, Cell.num before.elevation] := by
  have hne := scanFirstAfter_ne_nil hScan
  have hrest : raw.drop fns.length = [] := List.drop_eq_nil_iff.mpr hLen
  constructor
  · simp only [processRow, hTime, hParse, processRowAt, annotateAt, hne, hScan,
      Bool.false_eq_true, if_false, hi, if_neg, hBefore, hEq, if_pos,
      writeRowCells, hrest, List.isEmpty_nil, if_true]
  · rw [mapRow_drop]
    rcases cellValue_exact (List.zip fns raw) before with ⟨h1, h2, h3⟩
    rw [h1, h2, h3]

/-- Concrete instance of the exact-match claim: track points at instants
0 and 100, a record at instant 0 (01:00:00 CET on 1970-01-01). -/
theorem C3_exact_match_verbatim_witness :
    processRow [⟨0, 1, 2, 3⟩, ⟨100, 4, 5, 6⟩] ["Time"] (["Time"] ++ locNames)
        none ["1970-01-01 01:00:00"]
      = (Except.ok ((["Time"] ++ locNames).map
            (cellValue (List.zip ["Time"] ["1970-01-01 01:00:00"])
              (locUpdatesExact ⟨0, 1, 2, 3⟩))), some ⟨100, 4, 5, 6⟩)
    ∧ ((["Time"] ++ locNames).map
          (cellValue (List.zip ["Time"] ["1970-01-01 01:00:00"])
            (locUpdatesExact ⟨0, 1, 2, 3⟩))).drop 1
      = [Cell.num 1, Cell.num 2, Cell.num 3] :=
  C3_exact_match_verbatim [⟨0, 1, 2, 3⟩, ⟨100, 4, 5, 6⟩] ["Time"] none
    ["1970-01-01 01:00:00"] "1970-01-01 01:00:00" ⟨1970, 1, 1, 1, 0, 0⟩ 1
    ⟨100, 4, 5, 6⟩ ⟨0, 1, 2, 3⟩ (by decide) (by decide) (by decide) (by decide)
    (by decide) (by decide) (by decide)

/-- Keys of a zipped row dict all come from the fieldnames, so a name
outside the fieldnames is unbound. -/
theorem dictGet_zip_not_mem {α : Type} (fns : List String) (vs : List α)
    (k : String) (hk : k ∉ fns) : dictGet (List.zip fns vs) k = none := by
  refine dictGet_eq_none _ _ ?_
  intro p hp hcontra
  exact hk (hcontra ▸ (List.of_mem_zip hp).1)

/-- When no location update was made and the location names are not
input columns, the three appended columns are blank. -/
theorem unset_drop_blank (fns : List String) (raw : List String)
    (hLat : "latitude" ∉ fns) (hLon : "longitude" ∉ fns) (hEle : "elevation" ∉ fns) :
    ((fns ++ locNames).map (cellValue (List.zip fns raw) [])).drop fns.length
      = [Cell.str "", Cell.str "", Cell.str ""] := by
  rw [mapRow_drop]
  rw [cellValue_noUpdates, cellValue_noUpdates, cellValue_noUpdates]
  rw [dictGet_zip_not_mem fns raw _ hLat, dictGet_zip_not_mem fns raw _ hLon,
    dictGet_zip_not_mem fns raw _ hEle]
  rfl

/-- Claim C5: for every weather record whose chosen interval has a
whole-second delta of zero (the zero-duration case of the spec), the
merge leaves the three location fields unset: the guard `seconds != 0`
skips the interpolation branch, so no division happens and no exception
is raised. -/
theorem C5_zero_duration_unset
    (points : List TrackPoint) (fns : List String) (afterSt : Option TrackPoint)
    (raw : List String) (ts : String) (c : Civil) (i : Nat)
    (afterP before : TrackPoint)
    (hTime : dictGet (List.zip fns raw) "Time" = some ts)
    (hParse : strptimeYmdHMS ts = some c)
    (hScan : scanFirstAfter (utcOfCET c) points = some (i, afterP))
    (hi : i ≠ 0)
    (hBefore : points.get? (i - 1) = some before)
    (hNe : before.time ≠ utcOfCET c)
    (hZero : tdSeconds afterP.time before.time = 0)
    (hLen : raw.length ≤ fns.length)
    (hLat : "latitude" ∉ fns) (hLon : "longitude" ∉ fns) (hEle : "elevation" ∉ fns) :
    processRow points fns (fns ++ locNames) afterSt raw
      = (Except.ok ((fns ++ locNames).map (cellValue (List.zip fns raw) [])), some afterP)
    ∧ ((fns ++ locNames).map (cellValue (List.zip fns raw) [])).drop fns.length
      = [Cell.str "", Cell.str "", Cell.str ""] := by
  have hne := scanFirstAfter_ne_nil hScan
  have hrest : raw.drop fns.length = [] := List.drop_eq_nil_iff.mpr hLen
  constructor
  · simp only [processRow, hTime, hParse, processRowAt, annotateAt, hne,
      Bool.false_eq_true, if_false, hScan, hi, if_neg, hBefore, hNe, hZero, if_pos,
      writeRowCells, hrest, List.isEmpty_nil, if_true]
  · exact unset_drop_blank fns raw hLat hLon hEle

/-- Concrete instance of the zero-duration claim: the chosen interval
spans exactly one day, so its `timedelta.seconds` component is zero
(with two literally equal timestamps the strict scan can never choose
the pair, so the whole-second delta is the operative condition). -/
theorem C5_zero_duration_unset_witness :
    processRow [⟨0, 1, 2, 3⟩, ⟨86400, 4, 5, 6⟩] ["Time"] (["Time"] ++ locNames)
        none ["1970-01-01 01:00:05"]
      = (Except.ok ((["Time"] ++ locNames).map
            (cellValue (List.zip ["Time"] ["1970-01-01 01:00:05"]) [])), some ⟨86400, 4, 5, 6⟩)
    ∧ ((["Time"] ++ locNames).map
          (cellValue (List.zip ["Time"] ["1970-01-01 01:00:05"]) [])).drop 1
      = [Cell.str "", Cell.str "", Cell.str ""] :=
  C5_zero_duration_unset [⟨0, 1, 2, 3⟩, ⟨86400, 4, 5, 6⟩] ["Time"] none
    ["1970-01-01 01:00:05"] "1970-01-01 01:00:05" ⟨1970, 1, 1, 1, 0, 5⟩ 1
    ⟨86400, 4, 5, 6⟩ ⟨0, 1, 2, 3⟩ (by decide) (by decide) (by decide) (by decide)
    (by decide) (by decide) (by decide) (by decide) (by decide) (by decide) (by decide)

/-- Claim C6: for every weather record whose instant is strictly earlier
than the first track point's timestamp, the scan stops at index 0, so no
track point precedes it: the merge leaves the three location fields
unset for that record and proceeds to the next one. -/
theorem C6_before_first_point_unset
    (points : List TrackPoint) (fns : List String) (afterSt : Option TrackPoint)
    (raw : List String) (ts : String) (c : Civil) (p0 : TrackPoint)
    (hTime : dictGet (List.zip fns raw) "Time" = some ts)
    (hParse : strptimeYmdHMS ts = some c)
    (hHead : points.head? = some p0)
    (hlt : utcOfCET c < p0.time)
    (hLen : raw.length ≤ fns.length)
    (hLat : "latitude" ∉ fns) (hLon : "longitude" ∉ fns) (hEle : "elevation" ∉ fns) :
    processRow points fns (fns ++ locNames) afterSt raw
      = (Except.ok ((fns ++ locNames).map (cellValue (List.zip fns raw) [])), some p0)
    ∧ ((fns ++ locNames).map (cellValue (List.zip fns raw) [])).drop fns.length
      = [Cell.str "", Cell.str "", Cell.str ""] := by
  rcases points with _ | ⟨q, rest⟩
  · simp at hHead
  · simp only [List.head?] at hHead
    cases hHead
    have hScan : scanFirstAfter (utcOfCET c) (p0 :: rest) = some (0, p0) := by
      simp [scanFirstAfter, hlt]
    have hrest : raw.drop fns.length = [] := List.drop_eq_nil_iff.mpr hLen
    constructor
    · simp only [processRow, hTime, hParse, processRowAt, annotateAt, List.isEmpty_cons,
        Bool.false_eq_true, if_false, hScan, if_pos, writeRowCells, hrest,
        List.isEmpty_nil, if_true]
    · exact unset_drop_blank fns raw hLat hLon hEle

/-- Concrete instance of the before-first-point claim: both track points
are after the record's instant. -/
theorem C6_before_first_point_unset_witness :
    processRow [⟨100, 1, 2, 3⟩, ⟨200, 4, 5, 6⟩] ["Time"] (["Time"] ++ locNames)
        none ["1970-01-01 01:00:05"]
      = (Except.ok ((["Time"] ++ locNames).map
            (cellValue (List.zip ["Time"] ["1970-01-01 01:00:05"]) [])), some ⟨100, 1, 2, 3⟩)
    ∧ ((["Time"] ++ locNames).map
          (cellValue (List.zip ["Time"] ["1970-01-01 01:00:05"]) [])).drop 1
      = [Cell.str "", Cell.str "", Cell.str ""] :=
  C6_before_first_point_unset [⟨100, 1, 2, 3⟩, ⟨200, 4, 5, 6⟩] ["Time"] none
    ["1970-01-01 01:00:05"] "1970-01-01 01:00:05" ⟨1970, 1, 1, 1, 0, 5⟩ ⟨100, 1, 2, 3⟩
    (by decide) (by decide) (by decide) (by decide) (by decide) (by decide)
    (by decide) (by decide)

/-- Code-path lemma: when the scan finds an after point at a nonzero
index, the point before it does not match the instant exactly and the
whole-second delta of the interval is nonzero, the row is written with
the interpolation updates. -/
theorem processRow_interp_eval
    (points : List TrackPoint) (fns : List String) (afterSt : Option TrackPoint)
    (raw : List String) (ts : String) (c : Civil) (i : Nat)
    (afterP before : TrackPoint)
    (hTime : dictGet (List.zip fns raw) "Time" = some ts)
    (hParse : strptimeYmdHMS ts = some c)
    (hScan : scanFirstAfter (utcOfCET c) points = some (i, afterP))
    (hi : i ≠ 0)
    (hBefore : points.get? (i - 1) = some before)
    (hNe : before.time ≠ utcOfCET c)
    (hsz : tdSeconds afterP.time before.time ≠ 0)
    (hLen : raw.length ≤ fns.length) :
    processRow points fns (fns ++ locNames) afterSt raw
      = (Except.ok ((fns ++ locNames).map
          (cellValue (List.zip fns raw)
            (locUpdatesInterp before afterP (utcOfCET c)))), some afterP) := by
  have hne := scanFirstAfter_ne_nil hScan
  have hrest : raw.drop fns.length = [] := List.drop_eq_nil_iff.mpr hLen
  simp only [processRow, hTime, hParse, processRowAt, annotateAt, hne,
    Bool.false_eq_true, if_false, hScan, hi, if_neg, hBefore, hNe, hsz,
    writeRowCells, hrest, List.isEmpty_nil, if_true]

/-- Claim C2 (amended): for every weather record strictly between two
adjacent track points with distinct timestamps, provided the interval is
shorter than one day (the code takes the `timedelta.seconds` component,
i.e. whole seconds modulo 86400), each output location field equals
`before.value + t * (after.value - before.value)` with
`t = (instant - before.time) / (after.time - before.time)` in whole
seconds. -/
theorem C2_linear_interpolation
    (points : List TrackPoint) (fns : List String) (afterSt : Option TrackPoint)
    (raw : List String) (ts : String) (c : Civil) (k : Nat)
    (before afterP : TrackPoint)
    (hTime : dictGet (List.zip fns raw) "Time" = some ts)
    (hParse : strptimeYmdHMS ts = some c)
    (hb : points.get? k = some before)
    (ha : points.get? (k + 1) = some afterP)
    (hSorted : ∀ j q, j < k → points.get? j = some q → q.time ≤ before.time)
    (h1 : before.time < utcOfCET c)
    (h2 : utcOfCET c < afterP.time)
    (hgap : afterP.time - before.time < 86400)
    (hLen : raw.length ≤ fns.length) :
    processRow points fns (fns ++ locNames) afterSt raw
      = (Except.ok ((fns ++ locNames).map
          (cellValue (List.zip fns raw)
            (locUpdatesInterp before afterP (utcOfCET c)))), some afterP)
    ∧ ((fns ++ locNames).map
        (cellValue (List.zip fns raw)
          (locUpdatesInterp before afterP (utcOfCET c)))).drop fns.length
      = [Cell.num (before.latitude
            + ((utcOfCET c - before.time : Int) : ℚ)
                / ((afterP.time - before.time : Int) : ℚ)
                * (afterP.latitude - before.latitude)),
         Cell.num (before.longitude
            + ((utcOfCET c - before.time : Int) : ℚ)
                / ((afterP.time - before.time : Int) : ℚ)
                * (afterP.longitude - before.longitude)),
         Cell.num (before.elevation
            + ((utcOfCET c - before.time : Int) : ℚ)
                / ((afterP.time - before.time : Int) : ℚ)
                * (afterP.elevation - before.elevation))] := by
  have hScan : scanFirstAfter (utcOfCET c) points = some (k + 1, afterP) := by
    refine scanFirstAfter_eq_some _ _ _ _ ha h2 ?_
    intro j q hj hq
    rcases Nat.lt_succ_iff_lt_or_eq.mp hj with hlt | hEqj
    · exact not_lt.mpr (le_of_lt (lt_of_le_of_lt (hSorted j q hlt hq) h1))
    · subst hEqj
      rw [hb] at hq
      cases hq
      exact not_lt.mpr (le_of_lt h1)
  have hsec : tdSeconds afterP.time before.time = afterP.time - before.time :=
    Int.emod_eq_of_lt (by omega) hgap
  have hel : tdSeconds (utcOfCET c) before.time = utcOfCET c - before.time :=
    Int.emod_eq_of_lt (by omega) (by omega)
  have hsz : tdSeconds afterP.time before.time ≠ 0 := by omega
  constructor
  · exact processRow_interp_eval points fns afterSt raw ts c (k + 1) afterP before
      hTime hParse hScan (Nat.succ_ne_zero k) (by simpa using hb)
      (by omega) hsz hLen
  · rw [mapRow_drop]
    rcases cellValue_interp (List.zip fns raw) before afterP (utcOfCET c) with ⟨g1, g2, g3⟩
    rw [g1, g2, g3, hsec, hel]
    have harr : ∀ b x e s : ℚ, b + e * (x / s) = b + e / s * x := by
      intro b x e s
      ring
    rw [harr, harr, harr]

/-- Concrete instance of the interpolation claim, the spec's midpoint
example: `before` at t=0 with (0,0,0), `after` 10 seconds later with
(10,20,30), record 5 seconds after `before` yields (5,10,15). -/
theorem C2_linear_interpolation_witness :
    processRow [⟨0, 0, 0, 0⟩, ⟨10, 10, 20, 30⟩] ["Time"] (["Time"] ++ locNames)
        none ["1970-01-01 01:00:05"]
      = (Except.ok ((["Time"] ++ locNames).map
          (cellValue (List.zip ["Time"] ["1970-01-01 01:00:05"])
            (locUpdatesInterp ⟨0, 0, 0, 0⟩ ⟨10, 10, 20, 30⟩
              (utcOfCET ⟨1970, 1, 1, 1, 0, 5⟩)))), some ⟨10, 10, 20, 30⟩)
    ∧ ((["Time"] ++ locNames).map
        (cellValue (List.zip ["Time"] ["1970-01-01 01:00:05"])
          (locUpdatesInterp ⟨0, 0, 0, 0⟩ ⟨10, 10, 20, 30⟩
            (utcOfCET ⟨1970, 1, 1, 1, 0, 5⟩)))).drop 1
      = [Cell.num 5, Cell.num 10, Cell.num 15] := by
  have h := C2_linear_interpolation [⟨0, 0, 0, 0⟩, ⟨10, 10, 20, 30⟩] ["Time"] none
    ["1970-01-01 01:00:05"] "1970-01-01 01:00:05" ⟨1970, 1, 1, 1, 0, 5⟩ 0
    ⟨0, 0, 0, 0⟩ ⟨10, 10, 20, 30⟩ (by decide) (by decide) (by decide) (by decide)
    (by intro j q hj hq; omega) (by decide) (by decide) (by decide) (by decide)
  refine ⟨h.1, ?_⟩
  have hk : utcOfCET ⟨1970, 1, 1, 1, 0, 5⟩ = 5 := by decide
  have h2 := h.2
  rw [hk] at h2
  rw [hk]
  exact h2.trans (by norm_num)

/-- Counterexample to claim C2 as stated: adjacent points 86410 seconds
(one day and ten seconds) apart, record 5 seconds after `before`.  The
claimed fraction is t = 5/86410, predicting latitude 0 + t*(10-0) =
5/8641, but the code divides by `timedelta.seconds` = 10 and writes
latitude 5. -/
theorem C2_day_gap_counterexample :
    (mergeGpxKestrel [⟨0, 0, 0, 0⟩, ⟨86410, 10, 20, 30⟩]
        { preamble := [], headerRow := ["Time"], unitsLine := "u",
          dataRows := [["1970-01-01 01:00:05"]] }).rowsOut
      = [[Cell.str "1970-01-01 01:00:05", Cell.num 5, Cell.num 10, Cell.num 15]]
    ∧ ¬ (Cell.num 5
          = Cell.num (0 + ((5 : ℚ) / ((86410 : ℚ) - 0)) * ((10 : ℚ) - 0))) := by
  have hrow := processRow_interp_eval [⟨0, 0, 0, 0⟩, ⟨86410, 10, 20, 30⟩] ["Time"] none
    ["1970-01-01 01:00:05"] "1970-01-01 01:00:05" ⟨1970, 1, 1, 1, 0, 5⟩ 1
    ⟨86410, 10, 20, 30⟩ ⟨0, 0, 0, 0⟩ (by decide) (by decide) (by decide) (by decide)
    (by decide) (by decide) (by decide) (by decide)
  constructor
  · have htrim : trimFieldnames ["Time"] = some ["Time"] := by decide
    have hk : utcOfCET ⟨1970, 1, 1, 1, 0, 5⟩ = 5 := by decide
    have hs1 : tdSeconds (86410 : Int) 0 = 10 := by decide
    have hs2 : tdSeconds (5 : Int) 0 = 5 := by decide
    have hcellT : cellValue (List.zip ["Time"] ["1970-01-01 01:00:05"])
        (locUpdatesInterp ⟨0, 0, 0, 0⟩ ⟨86410, 10, 20, 30⟩ 5) "Time"
        = Cell.str "1970-01-01 01:00:05" := rfl
    rw [hk] at hrow
    rcases cellValue_interp (List.zip ["Time"] ["1970-01-01 01:00:05"])
      ⟨0, 0, 0, 0⟩ ⟨86410, 10, 20, 30⟩ 5 with ⟨g1, g2, g3⟩
    simp only [mergeGpxKestrel, htrim, writeRows, hrow]
    simp only [locNames, List.cons_append, List.nil_append, List.map_cons, List.map_nil]
    rw [hcellT, g1, g2, g3]
    norm_num [hs1, hs2]
  · intro h
    have := Cell.num.inj h
    norm_num at this

/-- Claim C1 (evaluated at the failing input): with track points at
instants 0 and 10 and a single record at instant 3600 (later than every
point), the scan never breaks, `i` stays at the last index, and line 140
reads `after_point`, which was never assigned: the merge raises
`UnboundLocalError` and writes no data row, instead of leaving the
location fields unset. -/
theorem C1_after_last_point_crash :
    mergeGpxKestrel [⟨0, 1, 2, 3⟩, ⟨10, 4, 5, 6⟩]
        { preamble := [], headerRow := ["Time"], unitsLine := "u",
          dataRows := [["1970-01-01 02:00:00"]] }
      = { preambleOut := [], headerOut := some ["Time", "latitude", "longitude", "elevation"],
          unitsOut := some "u", rowsOut := [],
          errorOut := some MergeErr.unboundLocalAfter } := by
  decide

/-- Claim C8: the gpx loader tags points with the UTC zone identity
without shifting their wall-clock value; each record's `Time` field is
parsed in the fixed `'%Y-%m-%d %H:%M:%S'` format, interpreted as a
wall-clock reading in the CET zone (the configured default, with that
zone's DST rules), and converted to an absolute UTC instant before any
comparison with track points; concrete instances: winter readings get
offset +1h and summer readings +2h (CEST). -/
theorem C8_time_normalization :
    (∀ ps : List GpxPoint,
        (loadGpxPoints ps).map TrackPoint.time = ps.map GpxPoint.time)
    ∧ (∀ (points : List TrackPoint) (fns : List String) (afterSt : Option TrackPoint)
        (raw : List String) (ts : String) (c : Civil),
        dictGet (List.zip fns raw) "Time" = some ts →
        strptimeYmdHMS ts = some c →
        processRow points fns (fns ++ locNames) afterSt raw
          = processRowAt points fns (fns ++ locNames) afterSt raw
              (civilToEpoch c - cetUtcOffset c))
    ∧ strptimeYmdHMS "2019-06-15 12:00:00" = some ⟨2019, 6, 15, 12, 0, 0⟩
    ∧ cetUtcOffset ⟨2019, 1, 15, 12, 0, 0⟩ = 3600
    ∧ cetUtcOffset ⟨2019, 6, 15, 12, 0, 0⟩ = 7200 := by
  refine ⟨?_, ?_, by decide, by decide, by decide⟩
  · intro ps
    simp only [loadGpxPoints, List.map_map]
    rfl
  · intro points fns afterSt raw ts c hTime hParse
    simp only [processRow, hTime, hParse, utcOfCET]

/-- Concrete instance of the time-normalization claim: a summer record
is processed at the instant `civil epoch - 7200`. -/
theorem C8_time_normalization_witness :
    processRow [] ["Time"] (["Time"] ++ locNames) none ["2019-06-15 12:00:00"]
      = processRowAt [] ["Time"] (["Time"] ++ locNames) none ["2019-06-15 12:00:00"]
          (civilToEpoch ⟨2019, 6, 15, 12, 0, 0⟩ - cetUtcOffset ⟨2019, 6, 15, 12, 0, 0⟩) :=
  C8_time_normalization.2.1 [] ["Time"] none ["2019-06-15 12:00:00"]
    "2019-06-15 12:00:00" ⟨2019, 6, 15, 12, 0, 0⟩ (by decide) (by decide)

/-- The `while fieldnames[-1] == '': pop` loop removes exactly the
trailing empty-named columns when the base header ends in a nonempty
name. -/
theorem trimFieldnames_trailing (base : List String) (m : Nat) (b : String)
    (hb : base.getLast? = some b) (hne : b ≠ "") :
    trimFieldnames (base ++ List.replicate m "") = some base := by
  have hrev : base.reverse.head? = some b := by
    rw [List.head?_reverse]
    exact hb
  rcases hx : base.reverse with _ | ⟨x, xs⟩
  · rw [hx] at hrev
    simp at hrev
  · have hxb : x = b := by
      rw [hx] at hrev
      simpa using hrev
    have hxe : (x == "") = false := by
      subst hxb
      exact beq_eq_false_iff_ne.mpr hne
    have hdrop : List.dropWhile (fun s => s == "")
        (List.replicate m "" ++ base.reverse) = base.reverse := by
      induction m with
      | zero =>
        rw [List.replicate_zero, List.nil_append, hx, List.dropWhile_cons]
        simp [hxe]
      | succ n ih =>
        rw [List.replicate_succ, List.cons_append, List.dropWhile_cons]
        simpa using ih
    have hres : (base ++ List.replicate m "").reverse.dropWhile (fun s => s == "")
        = base.reverse := by
      rw [List.reverse_append, List.reverse_replicate]
      exact hdrop
    have hne2 : base.reverse.isEmpty = false := by
      rw [hx]
      rfl
    simp only [trimFieldnames, hres, hne2, Bool.false_eq_true, if_false,
      List.reverse_reverse]

/-- Claim C9: the merge copies the 9 preamble lines unchanged, trims the
trailing empty-named columns from the header, writes the trimmed header
extended by the three location columns, and writes the units row
unchanged immediately after the header. -/
theorem C9_structure_pass_through
    (points : List TrackPoint) (inp : KestrelInput) (fns : List String)
    (hpre : inp.preamble.length = 9)
    (htrim : trimFieldnames inp.headerRow = some fns) :
    (mergeGpxKestrel points inp).preambleOut = inp.preamble
    ∧ (mergeGpxKestrel points inp).preambleOut.length = 9
    ∧ (mergeGpxKestrel points inp).headerOut = some (fns ++ locNames)
    ∧ (mergeGpxKestrel points inp).unitsOut = some inp.unitsLine
    ∧ ∀ (base : List String) (m : Nat) (b : String),
        base.getLast? = some b → b ≠ "" →
        trimFieldnames (base ++ List.replicate m "") = some base := by
  refine ⟨?_, ?_, ?_, ?_, fun base m b hb hbne => trimFieldnames_trailing base m b hb hbne⟩
  · simp [mergeGpxKestrel, htrim]
  · simp [mergeGpxKestrel, htrim, hpre]
  · simp [mergeGpxKestrel, htrim]
  · simp [mergeGpxKestrel, htrim]

/-- Concrete instance of the structure pass-through claim: 9 preamble
lines and a header with one trailing empty-named column. -/
theorem C9_structure_pass_through_witness :
    (mergeGpxKestrel []
        ⟨["a", "b", "c", "d", "e", "f", "g", "h", "i"], ["Time", ""], "units", []⟩).preambleOut.length = 9
    ∧ (mergeGpxKestrel []
        ⟨["a", "b", "c", "d", "e", "f", "g", "h", "i"], ["Time", ""], "units", []⟩).headerOut
      = some (["Time"] ++ locNames)
    ∧ (mergeGpxKestrel []
        ⟨["a", "b", "c", "d", "e", "f", "g", "h", "i"], ["Time", ""], "units", []⟩).unitsOut
      = some "units" := by
  have h := C9_structure_pass_through []
    ⟨["a", "b", "c", "d", "e", "f", "g", "h", "i"], ["Time", ""], "units", []⟩
    ["Time"] (by decide) (by decide)
  exact ⟨h.2.1, h.2.2.1, h.2.2.2.1⟩

/-- A successfully written row had no surplus values: the raw row is at
most as wide as the trimmed fieldnames. -/
theorem processRow_ok_len (points : List TrackPoint) (fns headers : List String)
    (afterSt : Option TrackPoint) (raw : List String) (o : List Cell)
    (h : (processRow points fns headers afterSt raw).1 = Except.ok o) :
    raw.length ≤ fns.length := by
  rcases hT : dictGet (List.zip fns raw) "Time" with _ | ts
  · simp [processRow, hT] at h
  · rcases hP : strptimeYmdHMS ts with _ | c
    · simp [processRow, hT, hP] at h
    · simp only [processRow, hT, hP, processRowAt] at h
      rcases hA : annotateAt points afterSt (utcOfCET c) with e | ⟨updates, st2⟩
      · simp [hA] at h
      · simp only [hA] at h
        by_cases hr : (raw.drop fns.length).isEmpty
        · rw [List.isEmpty_iff] at hr
          exact List.drop_eq_nil_iff.mp hr
        · simp [writeRowCells, hr] at h

/-- Whatever branch the annotation takes, every update it produces is
keyed by one of the three location column names. -/
theorem annotateAt_ok_keys (points : List TrackPoint) (afterSt : Option TrackPoint)
    (kt : Int) (updates : List (String × Cell)) (st2 : Option TrackPoint)
    (h : annotateAt points afterSt kt = Except.ok (updates, st2)) :
    ∀ p ∈ updates, p.1 ∈ locNames := by
  intro p hp
  simp only [annotateAt] at h
  split at h
  · simp at h
  · split at h
    · injection h with h'
      injection h' with h1 h2
      subst h1
      simp at hp
    · split at h
      · simp at h
      · split at h
        · injection h with h'
          injection h' with h1 h2
          subst h1
          simp only [locUpdatesExact, List.mem_cons, List.not_mem_nil, or_false] at hp
          rcases hp with rfl | rfl | rfl <;> simp [locNames]
        · split at h
          · simp at h
          · split at h
            · injection h with h'
              injection h' with h1 h2
              subst h1
              simp at hp
            · injection h with h'
              injection h' with h1 h2
              subst h1
              simp only [locUpdatesInterp, List.mem_cons, List.not_mem_nil, or_false] at hp
              rcases hp with rfl | rfl | rfl <;> simp [locNames]

/-- A successfully written row is the header-ordered rendering of the
input row dict plus location-keyed updates only. -/
theorem processRow_ok_shape (points : List TrackPoint) (fns headers : List String)
    (afterSt : Option TrackPoint) (raw : List String) (o : List Cell)
    (h : (processRow points fns headers afterSt raw).1 = Except.ok o) :
    ∃ updates : List (String × Cell),
      (∀ p ∈ updates, p.1 ∈ locNames)
      ∧ o = headers.map (cellValue (List.zip fns raw) updates) := by
  rcases hT : dictGet (List.zip fns raw) "Time" with _ | ts
  · simp [processRow, hT] at h
  · rcases hP : strptimeYmdHMS ts with _ | c
    · simp [processRow, hT, hP] at h
    · simp only [processRow, hT, hP, processRowAt] at h
      rcases hA : annotateAt points afterSt (utcOfCET c) with e | ⟨updates, st2⟩
      · simp [hA] at h
      · simp only [hA] at h
        by_cases hr : (raw.drop fns.length).isEmpty
        · refine ⟨updates, annotateAt_ok_keys points afterSt (utcOfCET c) updates st2 hA, ?_⟩
          simp only [writeRowCells, hr, if_true] at h
          exact (Except.ok.inj h).symm
        · simp [writeRowCells, hr] at h

/-- Rows written by a completed (exception-free) loop: one per input
row, the `k`-th written from the `k`-th input row at the state the first
`k` rows left behind. -/
theorem writeRows_none_spec (points : List TrackPoint) (fns headers : List String) :
    ∀ (rs : List (List String)) (st : Option TrackPoint),
    (writeRows points fns headers st rs).2 = none →
    (writeRows points fns headers st rs).1.length = rs.length
    ∧ ∀ k (hk : k < rs.length),
        (writeRows points fns headers st rs).1.get? k
          = ((processRow points fns headers
                (afterStateAt points fns headers st (rs.take k))
                (rs.get ⟨k, hk⟩)).1).toOption := by
  intro rs
  induction rs with
  | nil =>
    intro st h
    exact ⟨rfl, fun k hk => absurd hk (by simp)⟩
  | cons r rest ih =>
    intro st h
    rcases hp : processRow points fns headers st r with ⟨res, st2⟩
    cases res with
    | error e =>
      simp only [writeRows, hp] at h
      exact absurd h (by simp)
    | ok o =>
      have hw : writeRows points fns headers st (r :: rest)
          = (o :: (writeRows points fns headers st2 rest).1,
             (writeRows points fns headers st2 rest).2) := by
        simp [writeRows, hp]
      rw [hw] at h
      have h' : (writeRows points fns headers st2 rest).2 = none := h
      obtain ⟨ihlen, ihget⟩ := ih st2 h'
      rw [hw]
      constructor
      · simp [ihlen]
      · intro k hk
        cases k with
        | zero =>
          simp only [List.get?, List.take_zero, afterStateAt, List.get, hp]
          rfl
        | succ n =>
          have hk' : n < rest.length := Nat.lt_of_succ_lt_succ hk
          have hrec := ihget n hk'
          simp only [List.get?, List.take_succ_cons, afterStateAt, hp, List.get]
          exact hrec

/-- Splitting the row loop after an exception-free prefix. -/
theorem writeRows_append (points : List TrackPoint) (fns headers : List String) :
    ∀ (l1 l2 : List (List String)) (st : Option TrackPoint),
    (writeRows points fns headers st l1).2 = none →
    writeRows points fns headers st (l1 ++ l2)
      = ((writeRows points fns headers st l1).1
            ++ (writeRows points fns headers (afterStateAt points fns headers st l1) l2).1,
         (writeRows points fns headers (afterStateAt points fns headers st l1) l2).2) := by
  intro l1
  induction l1 with
  | nil =>
    intro l2 st h
    simp [writeRows, afterStateAt]
  | cons r rest ih =>
    intro l2 st h
    rcases hp : processRow points fns headers st r with ⟨res, st2⟩
    cases res with
    | error e =>
      simp only [writeRows, hp] at h
      exact absurd h (by simp)
    | ok o =>
      have h' : (writeRows points fns headers st2 rest).2 = none := by
        simp only [writeRows, hp] at h
        exact h
      have hstep : afterStateAt points fns headers st (r :: rest)
          = afterStateAt points fns headers st2 rest := by
        simp [afterStateAt, hp]
      rw [List.cons_append]
      simp only [writeRows, hp, ih l2 st2 h', hstep]
      rfl

/-- The merged output's data rows and error are those of the row loop,
run on the trimmed fieldnames with the extended headers. -/
theorem mergeGpxKestrel_rows (points : List TrackPoint) (inp : KestrelInput)
    (fns : List String) (htrim : trimFieldnames inp.headerRow = some fns) :
    (mergeGpxKestrel points inp).rowsOut
      = (writeRows points fns (fns ++ locNames) none inp.dataRows).1
    ∧ (mergeGpxKestrel points inp).errorOut
      = (writeRows points fns (fns ++ locNames) none inp.dataRows).2 := by
  constructor <;> simp [mergeGpxKestrel, htrim]

/-- Claim C4 (amended): whenever the merge completes without raising an
exception, the output contains exactly one data row per input data row,
in order: the `k`-th output row is the one produced from the `k`-th
input row, so none is dropped or duplicated. -/
theorem C4_row_count_amended
    (points : List TrackPoint) (inp : KestrelInput) (fns : List String)
    (htrim : trimFieldnames inp.headerRow = some fns)
    (herr : (mergeGpxKestrel points inp).errorOut = none) :
    (mergeGpxKestrel points inp).rowsOut.length = inp.dataRows.length
    ∧ ∀ k (hk : k < inp.dataRows.length),
        (mergeGpxKestrel points inp).rowsOut.get? k
          = ((processRow points fns (fns ++ locNames)
                (afterStateAt points fns (fns ++ locNames) none (inp.dataRows.take k))
                (inp.dataRows.get ⟨k, hk⟩)).1).toOption := by
  obtain ⟨hrows, herr2⟩ := mergeGpxKestrel_rows points inp fns htrim
  have hw2 : (writeRows points fns (fns ++ locNames) none inp.dataRows).2 = none := by
    rw [← herr2]
    exact herr
  obtain ⟨hlen, hget⟩ := writeRows_none_spec points fns (fns ++ locNames)
    inp.dataRows none hw2
  constructor
  · rw [hrows]
    exact hlen
  · intro k hk
    rw [hrows]
    exact hget k hk

/-- Concrete instance of the amended row-count claim: two records, both
before the only track point, produce two output rows. -/
theorem C4_row_count_amended_witness :
    (mergeGpxKestrel [⟨100, 1, 2, 3⟩]
        ⟨[], ["Time"], "u", [["1970-01-01 01:00:00"], ["1970-01-01 01:00:01"]]⟩).rowsOut.length
      = 2 :=
  (C4_row_count_amended [⟨100, 1, 2, 3⟩]
    ⟨[], ["Time"], "u", [["1970-01-01 01:00:00"], ["1970-01-01 01:00:01"]]⟩
    ["Time"] (by decide) (by decide)).1

/-- Counterexample to claim C4 as stated: a single data row carrying a
surplus value makes the writer raise, so the output holds 0 data rows
while the input holds 1. -/
theorem C4_row_count_counterexample :
    (mergeGpxKestrel [⟨100, 1, 2, 3⟩]
        ⟨[], ["Time"], "u", [["1970-01-01 01:00:00", "x"]]⟩).rowsOut.length = 0
    ∧ (⟨[], ["Time"], "u", [["1970-01-01 01:00:00", "x"]]⟩ : KestrelInput).dataRows.length = 1
    ∧ ¬ ((mergeGpxKestrel [⟨100, 1, 2, 3⟩]
        ⟨[], ["Time"], "u", [["1970-01-01 01:00:00", "x"]]⟩).rowsOut.length
          = (⟨[], ["Time"], "u", [["1970-01-01 01:00:00", "x"]]⟩ : KestrelInput).dataRows.length) := by
  decide

/-- Claim C7 (amended): the output field order is the input field order
after trimming trailing empty-named columns, with the three location
columns appended; and for rows whose processing succeeds, every field
of the trimmed header that is not a location name passes its value
through verbatim (stated for headers with distinct names, which makes
the per-field claim well defined). -/
theorem C7_pass_through_amended
    (points : List TrackPoint) (inp : KestrelInput) (fns : List String)
    (htrim : trimFieldnames inp.headerRow = some fns)
    (hnd : fns.Nodup)
    (herr : (mergeGpxKestrel points inp).errorOut = none) :
    (mergeGpxKestrel points inp).headerOut = some (fns ++ locNames)
    ∧ ∀ k (hk : k < inp.dataRows.length) (j : Nat) (f v : String),
        fns.get? j = some f →
        f ∉ locNames →
        (inp.dataRows.get ⟨k, hk⟩).get? j = some v →
        ∃ row, (mergeGpxKestrel points inp).rowsOut.get? k = some row
          ∧ row.get? j = some (Cell.str v) := by
  obtain ⟨hrows, herr2⟩ := mergeGpxKestrel_rows points inp fns htrim
  constructor
  · simp [mergeGpxKestrel, htrim]
  · intro k hk j f v hf hfloc hv
    have hw2 : (writeRows points fns (fns ++ locNames) none inp.dataRows).2 = none := by
      rw [← herr2]
      exact herr
    obtain ⟨hlen, hget⟩ := writeRows_none_spec points fns (fns ++ locNames)
      inp.dataRows none hw2
    have hk2 : k < (writeRows points fns (fns ++ locNames) none inp.dataRows).1.length := by
      rw [hlen]
      exact hk
    obtain ⟨row, hrow⟩ : ∃ row,
        (writeRows points fns (fns ++ locNames) none inp.dataRows).1.get? k = some row :=
      ⟨_, List.get?_eq_get hk2⟩
    have hopt := hget k hk
    rw [hrow] at hopt
    have hpr : (processRow points fns (fns ++ locNames)
        (afterStateAt points fns (fns ++ locNames) none (inp.dataRows.take k))
        (inp.dataRows.get ⟨k, hk⟩)).1 = Except.ok row := by
      rcases hres : (processRow points fns (fns ++ locNames)
          (afterStateAt points fns (fns ++ locNames) none (inp.dataRows.take k))
          (inp.dataRows.get ⟨k, hk⟩)).1 with e | o
      · rw [hres] at hopt
        simp [Except.toOption] at hopt
      · rw [hres] at hopt
        simp only [Except.toOption, Option.some.injEq] at hopt
        rw [hopt]
    obtain ⟨updates, hkeys, hshape⟩ := processRow_ok_shape points fns (fns ++ locNames)
      _ _ row hpr
    refine ⟨row, by rw [hrows]; exact hrow, ?_⟩
    rw [hshape]
    have hj : j < fns.length := (List.get?_eq_some.mp hf).1
    rw [List.get?_map, List.get?_append hj, hf]
    have hupd : dictGet updates f = none :=
      dictGet_eq_none _ _ (fun p hp hc => hfloc (hc ▸ hkeys p hp))
    have hdict : dictGet (List.zip fns (inp.dataRows.get ⟨k, hk⟩)) f = some v :=
      dictGet_zip_nodup fns _ hnd j f v hf hv
    simp only [Option.map_some', cellValue, hupd, hdict, Option.getD_some]

/-- Concrete instance of the amended pass-through claim: the `temp`
column's value survives the merge verbatim. -/
theorem C7_pass_through_amended_witness :
    ∃ row, (mergeGpxKestrel [⟨100, 1, 2, 3⟩]
        ⟨[], ["Time", "temp"], "u", [["1970-01-01 01:00:00", "7"]]⟩).rowsOut.get? 0 = some row
      ∧ row.get? 1 = some (Cell.str "7") :=
  (C7_pass_through_amended [⟨100, 1, 2, 3⟩]
    ⟨[], ["Time", "temp"], "u", [["1970-01-01 01:00:00", "7"]]⟩ ["Time", "temp"]
    (by decide) (by decide) (by decide)).2 0 (by decide) 1 "temp" "7"
    (by decide) (by decide) (by decide)

/-- Counterexample to claim C7 as stated: with a trailing empty-named
input column, the output field order is the TRIMMED input order plus the
three location columns, not the input order plus the three columns. -/
theorem C7_pass_through_counterexample :
    (mergeGpxKestrel [⟨100, 1, 2, 3⟩]
        ⟨[], ["Time", ""], "u", []⟩).headerOut
      = some ["Time", "latitude", "longitude", "elevation"]
    ∧ ¬ ((mergeGpxKestrel [⟨100, 1, 2, 3⟩]
        ⟨[], ["Time", ""], "u", []⟩).headerOut
      = some (["Time", ""] ++ ["latitude", "longitude", "elevation"])) := by
  decide

/-- Claim C10: in every weather log in which the data row at position
`j` carries more delimited values than the trimmed header has names
(and the rows before it are processed without exception), the writer
raises on that row: the rows before it are the whole output, so it and
every later row are absent. -/
theorem C10_extra_values_abort
    (points : List TrackPoint) (inp : KestrelInput) (fns : List String) (j : Nat)
    (hj : j < inp.dataRows.length)
    (htrim : trimFieldnames inp.headerRow = some fns)
    (hlong : fns.length < (inp.dataRows.get ⟨j, hj⟩).length)
    (hpre : (writeRows points fns (fns ++ locNames) none (inp.dataRows.take j)).2 = none) :
    (mergeGpxKestrel points inp).rowsOut
      = (writeRows points fns (fns ++ locNames) none (inp.dataRows.take j)).1
    ∧ (mergeGpxKestrel points inp).rowsOut.length = j
    ∧ (mergeGpxKestrel points inp).errorOut.isSome = true := by
  obtain ⟨hrows, herr2⟩ := mergeGpxKestrel_rows points inp fns htrim
  have hsplit : inp.dataRows
      = inp.dataRows.take j ++ (inp.dataRows.get ⟨j, hj⟩ :: inp.dataRows.drop (j + 1)) := by
    conv_lhs => rw [← List.take_append_drop j inp.dataRows]
    rw [List.drop_eq_get_cons hj]
  rcases hp : processRow points fns (fns ++ locNames)
      (afterStateAt points fns (fns ++ locNames) none (inp.dataRows.take j))
      (inp.dataRows.get ⟨j, hj⟩) with ⟨res, st2⟩
  cases res with
  | ok o =>
    have hle := processRow_ok_len points fns (fns ++ locNames) _ _ o (by rw [hp])
    omega
  | error e =>
    have htail : writeRows points fns (fns ++ locNames)
        (afterStateAt points fns (fns ++ locNames) none (inp.dataRows.take j))
        (inp.dataRows.get ⟨j, hj⟩ :: inp.dataRows.drop (j + 1)) = ([], some e) := by
      simp only [writeRows, hp]
    have hw : writeRows points fns (fns ++ locNames) none inp.dataRows
        = ((writeRows points fns (fns ++ locNames) none (inp.dataRows.take j)).1, some e) := by
      conv_lhs => rw [hsplit]
      rw [writeRows_append points fns (fns ++ locNames) (inp.dataRows.take j) _ none hpre,
        htail]
      simp
    have hlen : (writeRows points fns (fns ++ locNames) none (inp.dataRows.take j)).1.length
        = j := by
      rw [(writeRows_none_spec points fns (fns ++ locNames) (inp.dataRows.take j) none hpre).1]
      rw [List.length_take]
      exact Nat.min_eq_left (le_of_lt hj)
    refine ⟨?_, ?_, ?_⟩
    · rw [hrows, hw]
    · rw [hrows, hw]
      exact hlen
    · rw [herr2, hw]
      rfl

/-- Concrete instance of the extra-values claim: the second data row
carries a surplus value; the first row is written, the second is not. -/
theorem C10_extra_values_abort_witness :
    (mergeGpxKestrel [⟨100, 1, 2, 3⟩]
        ⟨[], ["Time"], "u", [["1970-01-01 01:00:00"], ["1970-01-01 01:00:01", "x"]]⟩).rowsOut.length
      = 1
    ∧ (mergeGpxKestrel [⟨100, 1, 2, 3⟩]
        ⟨[], ["Time"], "u", [["1970-01-01 01:00:00"], ["1970-01-01 01:00:01", "x"]]⟩).errorOut.isSome
      = true :=
  ⟨(C10_extra_values_abort [⟨100, 1, 2, 3⟩]
      ⟨[], ["Time"], "u", [["1970-01-01 01:00:00"], ["1970-01-01 01:00:01", "x"]]⟩
      ["Time"] 1 (by decide) (by decide) (by decide) (by decide)).2.1,
   (C10_extra_values_abort [⟨100, 1, 2, 3⟩]
      ⟨[], ["Time"], "u", [["1970-01-01 01:00:00"], ["1970-01-01 01:00:01", "x"]]⟩
      ["Time"] 1 (by decide) (by decide) (by decide) (by decide)).2.2⟩
